import Mathlib

/-!
Shallow embedding of the todo-creeper GitHub Action core (`src/index.js`,
the issue-creating variant) in Lean 4, together with theorems checking the
natural-language specification against it.

Modelling conventions:
* JavaScript strings are Lean `String`s; operations (`trim`, `includes`,
  `split`, `substring`, `toLowerCase`) are re-implemented over `String.data`
  (lists of characters) following the ECMAScript semantics the code relies on.
* The regular expressions in the code are of the restricted shape
  `OPENER\s*KEYWORD` (with the `i` flag) tested unanchored against a line.
  Because no whitespace character can begin any keyword (T/F/H), the greedy
  whitespace skip below is equivalent to the regex engine's backtracking
  search, so each pattern test is modelled as: at some start position the
  opener occurs literally, followed by a run of JS whitespace, followed by
  the keyword case-insensitively.
* The GitHub tree and the two network fetches are modelled as pure data: a
  directory tree of named entries plus a content oracle `String → Option
  String` (path to file text, `none` for a failed/absent fetch), and an
  issue-search oracle `String → List Issue` (query to result items).
  The GitHub API invariant that an item's `path` equals its parent path
  joined with `/` and its `name` is built in: the walker passes the joined
  path to the file scanner (the code reads it from `file.path`).
* Caught exceptions around directory listings and issue creation are not
  given separate failure constructors: a failed file-content fetch is
  `none`, which is the only fallible call the claims under study exercise.
-/

namespace TodoCreeper

/-- Character class of the ECMAScript `\s` regex class and of `String.prototype.trim`:
whitespace plus line terminators (both use the same set). -/
def isJsSpace (c : Char) : Bool :=
  c = ' ' || c = '\t' || c = '\n' || c = '\r' ||
  c = '\x0b' || c = '\x0c' ||
  c = '\u00A0' || c = '\u1680' ||
  ('\u2000' ≤ c && c ≤ '\u200A') ||
  c = '\u2028' || c = '\u2029' || c = '\u202F' || c = '\u205F' ||
  c = '\u3000' || c = '\uFEFF'

/-- List-level model of JS `String.prototype.trim`. -/
def jsTrimList (cs : List Char) : List Char :=
  ((cs.dropWhile isJsSpace).reverse.dropWhile isJsSpace).reverse

/-- Model of JS `String.prototype.trim`. -/
def jsTrim (s : String) : String :=
  String.mk (jsTrimList s.data)

/-- Substring containment on character lists (JS `String.prototype.includes`). -/
def containsSub (hay needle : List Char) : Bool :=
  needle.isPrefixOf hay ||
    match hay with
    | [] => false
    | _ :: t => containsSub t needle

/-- Model of JS `haystack.includes(needle)`. -/
def jsIncludes (hay needle : String) : Bool :=
  containsSub hay.data needle.data

/-- Model of JS `String.prototype.toLowerCase` (the inputs at issue are ASCII,
where `Char.toLower` agrees with the ECMAScript mapping). -/
def jsToLower (s : String) : String :=
  String.mk (s.data.map Char.toLower)

/-- Case-insensitive "starts with" on character lists (keyword matching under
the regex `i` flag). -/
def ciStarts : List Char → List Char → Bool
  | [], _ => true
  | _ :: _, [] => false
  | k :: ks, c :: cs => (k.toLower = c.toLower) && ciStarts ks cs

/-- Splits a character list at every occurrence of `sep`
(JS `String.prototype.split` with a one-character separator: `"".split`
yields `[""]`, adjacent separators yield empty chunks). -/
def splitOnCharL (sep : Char) : List Char → List (List Char)
  | [] => [[]]
  | c :: cs =>
    if c = sep then [] :: splitOnCharL sep cs
    else
      match splitOnCharL sep cs with
      | [] => [[c]]
      | h :: t => (c :: h) :: t

/-- Marker kind of a finding (the `type` field of the JS object). -/
inductive TodoType where
  | TODO
  | FIXME
  | HACK
deriving DecidableEq, Repr

/-- Finding record pushed by `scanFileForTodos` (`{file, line, content, type}`). -/
structure Finding where
  file : String
  line : Nat
  content : String
  type : TodoType
deriving DecidableEq, Repr

/-- Tests whether the regex `OPENER\s*KEYWORD/i` matches at the head of `cs`. -/
def markerHit (opener kw : List Char) (cs : List Char) : Bool :=
  opener.isPrefixOf cs && ciStarts kw ((cs.drop opener.length).dropWhile isJsSpace)

/-- Tests whether the regex `OPENER\s*KEYWORD/i` matches anywhere in `cs`
(JS `RegExp.prototype.test`, which searches all start positions). -/
def testFrom (opener kw : List Char) : List Char → Bool
  | [] => markerHit opener kw []
  | c :: cs => markerHit opener kw (c :: cs) || testFrom opener kw cs

/-- Model of `pattern.test(line)` for one of the twelve `todoPatterns`. -/
def markerTest (opener kw : String) (line : String) : Bool :=
  testFrom opener.data kw.data line.data

/-- The twelve patterns of `scanFileForTodos`, in source order: each is the
comment opener and the keyword of a regex `OPENER\s*KEYWORD/i`. -/
def todoPatterns : List (String × String) :=
  [("//", "TODO"), ("/*", "TODO"), ("#", "TODO"), ("<!--", "TODO"),
   ("//", "FIXME"), ("/*", "FIXME"), ("#", "FIXME"), ("<!--", "FIXME"),
   ("//", "HACK"), ("/*", "HACK"), ("#", "HACK"), ("<!--", "HACK")]

/-- Kind assigned to a matched pattern: the code computes
`pattern.source.includes('TODO') ? 'TODO' : pattern.source.includes('FIXME') ?
'FIXME' : 'HACK'`; each pattern's source contains exactly its own keyword
among the three, so the conditional reduces to the keyword component. -/
def kindOfKeyword (kw : String) : TodoType :=
  if jsIncludes kw "TODO" then .TODO
  else if jsIncludes kw "FIXME" then .FIXME
  else .HACK

/-- Per-line pass of `scanFileForTodos`: the `for` loop over `todoPatterns`
pushes one finding for the first matching pattern and then `break`s, so a
line yields the singleton for the first match, or nothing. -/
def scanLineFindings (filePath : String) (lineNumber : Nat) (line : String) :
    List Finding :=
  match todoPatterns.find? (fun pr => markerTest pr.1 pr.2 line) with
  | some pr =>
    [{ file := filePath, line := lineNumber, content := jsTrim line,
       type := kindOfKeyword pr.2 }]
  | none => []

/-- Extension allow-list of `scanFileForTodos` (`codeExtensions`), verbatim. -/
def codeExtensions : List String :=
  [".js", ".jsx", ".ts", ".tsx", ".py", ".java", ".cpp", ".c", ".cs", ".php",
   ".rb", ".go", ".rs", ".swift", ".kt", ".scala", ".clj", ".hs", ".ml",
   ".fs", ".vb", ".sql", ".sh", ".bash", ".zsh", ".fish", ".ps1", ".bat",
   ".cmd", ".yml", ".yaml", ".json", ".xml", ".html", ".css", ".scss",
   ".sass", ".less", ".vue", ".svelte", ".md", ".txt"]

/-- Helper for `extname`: the suffix of `cs` starting at its last dot, if any. -/
def extnameAux : List Char → Option (List Char)
  | [] => none
  | '.' :: cs =>
    match extnameAux cs with
    | some e => some e
    | none => some ('.' :: cs)
  | _ :: cs => extnameAux cs

/-- Model of Node's `path.extname` on a basename (the walker passes an entry
name, which contains no separator): the extension runs from the last `.` to
the end, except that a dot in first position (dotfiles) yields `""`. -/
def extname (name : String) : String :=
  match name.data with
  | [] => ""
  | _ :: cs =>
    match extnameAux cs with
    | some e => String.mk e
    | none => ""

/-- Model of `scanFileForTodos(file, octokit, context)`: gate on the
lowercased extension of the entry name, fetch the content at `file.path`
through the oracle (a `none` models the caught fetch failure and the
`type !== 'file' || !content` guard, all of which yield zero findings),
split on `'\n'`, and run the per-line pattern pass with 1-based numbering. -/
def scanFileForTodos (fetch : String → Option String) (name path : String) :
    List Finding :=
  if codeExtensions.contains (jsToLower (extname name)) then
    match fetch path with
    | some content =>
      ((splitOnCharL '\n' content.data).enum).flatMap
        (fun p => scanLineFindings path (p.1 + 1) (String.mk p.2))
    | none => []
  else []

/-- Directory-tree snapshot: what the repeated `getContent` listings of one
run observe (names only; file contents live in the fetch oracle). -/
inductive TreeEntry where
  | file (name : String)
  | dir (name : String) (children : List TreeEntry)

/-- Path join of the walker:
`currentPath ? `${currentPath}/${item.name}` : item.name`. -/
def joinPath (pre name : String) : String :=
  if pre = "" then name else pre ++ "/" ++ name

/-- Exclusion test of the walker:
`excludePatterns.some(pattern => itemPath.includes(pattern))`. -/
def excludedPath (excl : List String) (itemPath : String) : Bool :=
  excl.any (fun pat => jsIncludes itemPath pat)

/-- Model of `scanForTodos(contents, octokit, context, excludePatterns,
currentPath)`: walk the listing in order; skip any entry whose joined path
contains an exclusion pattern (checked before the type dispatch, so an
excluded directory is never listed); recurse into directories; scan files.
The finding order is the source's: traversal order, then in-file order. -/
def scanForTodos (fetch : String → Option String) (excl : List String) :
    String → List TreeEntry → List Finding
  | _, [] => []
  | pre, .file n :: rest =>
    let itemPath := joinPath pre n
    if excludedPath excl itemPath then scanForTodos fetch excl pre rest
    else scanFileForTodos fetch n itemPath ++ scanForTodos fetch excl pre rest
  | pre, .dir n children :: rest =>
    let itemPath := joinPath pre n
    if excludedPath excl itemPath then scanForTodos fetch excl pre rest
    else scanForTodos fetch excl itemPath children ++
      scanForTodos fetch excl pre rest
termination_by _ es => sizeOf es

/-- Modelled from the spec (section 4.2, Tree Walker contract): the candidate
file sequence — name and joined path of every non-excluded file in depth-first
pre-order. `scanForTodos` is proved to refine this walk composed with the
File Scanner (claim C8). -/
def specWalkFiles (excl : List String) :
    String → List TreeEntry → List (String × String)
  | _, [] => []
  | pre, .file n :: rest =>
    let itemPath := joinPath pre n
    if excludedPath excl itemPath then specWalkFiles excl pre rest
    else (n, itemPath) :: specWalkFiles excl pre rest
  | pre, .dir n children :: rest =>
    let itemPath := joinPath pre n
    if excludedPath excl itemPath then specWalkFiles excl pre rest
    else specWalkFiles excl itemPath children ++ specWalkFiles excl pre rest
termination_by _ es => sizeOf es

/-- Model of the input parsing
`core.getInput('exclude-patterns').split(',').map(p => p.trim()).filter(p => p.length > 0)`. -/
def parseExcludePatterns (s : String) : List String :=
  (((splitOnCharL ',' s.data).map (fun l => String.mk (jsTrimList l))).filter
    (fun p => p.length > 0))

/-- Decimal digit run at the head of a character list. -/
def decDigits (cs : List Char) : List Char :=
  cs.takeWhile Char.isDigit

/-- Numeric value of a decimal digit run. -/
def decValue (ds : List Char) : Nat :=
  ds.foldl (fun a c => a * 10 + (c.toNat - 48)) 0

/-- Hexadecimal digit test for the `0x` branch of `parseInt`. -/
def isHexDigitCh (c : Char) : Bool :=
  c.isDigit || ('a' ≤ c && c ≤ 'f') || ('A' ≤ c && c ≤ 'F')

/-- Value of one hexadecimal digit. -/
def hexDigitVal (c : Char) : Nat :=
  if c.isDigit then c.toNat - 48
  else if 'a' ≤ c && c ≤ 'f' then c.toNat - 87
  else c.toNat - 55

/-- Numeric value of a hexadecimal digit run. -/
def hexValue (ds : List Char) : Nat :=
  ds.foldl (fun a c => a * 16 + hexDigitVal c) 0

/-- Model of JS `parseInt(s)` with no radix argument: skip leading
whitespace, read an optional sign, then either a `0x`/`0X` hexadecimal or a
decimal digit run (longest prefix); `none` models the `NaN` result when no
digit follows. -/
def jsParseInt (s : String) : Option Int :=
  let cs := s.data.dropWhile isJsSpace
  let sgn : Int := match cs with | '-' :: _ => -1 | _ => 1
  let cs2 : List Char := match cs with
    | '-' :: r => r
    | '+' :: r => r
    | r => r
  match cs2 with
  | '0' :: c :: r =>
    if c = 'x' || c = 'X' then
      let hs := r.takeWhile isHexDigitCh
      if hs.isEmpty then none else some (sgn * (hexValue hs : Int))
    else some (sgn * (decValue (decDigits cs2) : Int))
  | _ =>
    let ds := decDigits cs2
    if ds.isEmpty then none else some (sgn * (decValue ds : Int))

/-- Model of `parseInt(core.getInput('threshold')) || 10`: a `NaN` parse
result is replaced by 10, and — because the number `0` is falsy in
JavaScript — so is a parsed value of zero. -/
def effectiveThreshold (s : String) : Int :=
  match jsParseInt s with
  | none => 10
  | some n => if n = 0 then 10 else n

/-- Model of the final gate `todoCount > threshold` that decides
`core.setFailed` versus success (line 88 of the source). -/
def thresholdFails (thresholdInput : String) (todoCount : Nat) : Bool :=
  (todoCount : Int) > effectiveThreshold thresholdInput

/-- Tracked issue as observed through the search API (`body` may be null). -/
structure Issue where
  number : Nat
  title : String
  body : Option String
deriving DecidableEq, Repr

/-- Repository identity and event payload fields that `run` and the
reconciler read from `github.context`. -/
structure GhContext where
  owner : String
  repoName : String
  eventName : String
  payloadPrNumber : Option Nat
  payloadNumber : Option Nat
  payloadIssueNumber : Option Nat
deriving DecidableEq, Repr

/-- JS truthiness of an optional number: `undefined` and `0` are falsy. -/
def truthyNat : Option Nat → Bool
  | some n => n != 0
  | none => false

/-- Model of the chain
`context.payload.pull_request?.number || context.payload.number ||
context.payload.issue?.number` as used in a boolean position. -/
def prContextTruthy (ctx : GhContext) : Bool :=
  truthyNat ctx.payloadPrNumber || truthyNat ctx.payloadNumber ||
    truthyNat ctx.payloadIssueNumber

/-- First search query of `findExistingIssue`:
`repo:${owner}/${repo} "${todo.content.trim()}" is:issue`. -/
def contentSearchQuery (ctx : GhContext) (todo : Finding) : String :=
  "repo:" ++ ctx.owner ++ "/" ++ ctx.repoName ++ " \"" ++
    jsTrim todo.content ++ "\" is:issue"

/-- Second search query of `findExistingIssue`:
`repo:${owner}/${repo} "${todo.file}" is:issue`. -/
def fileSearchQuery (ctx : GhContext) (todo : Finding) : String :=
  "repo:" ++ ctx.owner ++ "/" ++ ctx.repoName ++ " \"" ++ todo.file ++
    "\" is:issue"

/-- Acceptance predicate of the first loop of `findExistingIssue`:
`issue.body && (issue.body.includes(todo.file) ||
issue.body.includes(todo.content.trim()) ||
issue.title.toLowerCase().includes('todo'|'fixme'|'hack'))` — every branch is
guarded by the truthiness of `issue.body` (null and `""` are falsy). -/
def issueMatchesTodo (todo : Finding) (issue : Issue) : Bool :=
  match issue.body with
  | none => false
  | some b =>
    !b.isEmpty &&
      (jsIncludes b todo.file || jsIncludes b (jsTrim todo.content) ||
       jsIncludes (jsToLower issue.title) "todo" ||
       jsIncludes (jsToLower issue.title) "fixme" ||
       jsIncludes (jsToLower issue.title) "hack")

/-- Acceptance predicate of the second loop of `findExistingIssue`:
`issue.body && issue.body.includes(todo.content.trim())`. -/
def issueBodyHasContent (todo : Finding) (issue : Issue) : Bool :=
  match issue.body with
  | none => false
  | some b => !b.isEmpty && jsIncludes b (jsTrim todo.content)

/-- Model of `findExistingIssue(todo, octokit, context)`: search by trimmed
content and accept the first result passing `issueMatchesTodo`; otherwise
search by file path and accept the first result whose body contains the
trimmed content; otherwise `null`. (The catch-all that turns a search
failure into `null` has no separate representation: the oracle is total.) -/
def findExistingIssue (ctx : GhContext) (search : String → List Issue)
    (todo : Finding) : Option Issue :=
  match (search (contentSearchQuery ctx todo)).find? (issueMatchesTodo todo) with
  | some issue => some issue
  | none => (search (fileSearchQuery ctx todo)).find? (issueBodyHasContent todo)

/-- Model of `processTodosForIssues`: one pass over the findings, counting a
finding with an existing issue as linked and otherwise as created (issue
creation itself always succeeds in the model; its caught failure path is
exercised by no claim). Returns `(created, linked)`. -/
def processTodosForIssues (ctx : GhContext) (search : String → List Issue)
    (todos : List Finding) : Nat × Nat :=
  todos.foldl
    (fun acc todo =>
      match findExistingIssue ctx search todo with
      | some _ => (acc.1, acc.2 + 1)
      | none => (acc.1 + 1, acc.2))
    (0, 0)

/-- Model of `replace(/^MARKER\s*/, '')`: strip one leading occurrence of the
marker together with the following whitespace run, if the string starts with
the marker. -/
def stripLeadMarker (marker : List Char) (cs : List Char) : List Char :=
  if marker.isPrefixOf cs then (cs.drop marker.length).dropWhile isJsSpace
  else cs

/-- Model of `replace(/\s*MARKER$/, '')`: strip one trailing occurrence of
the marker together with the preceding whitespace run, if the string ends
with the marker. -/
def stripTrailMarker (marker : List Char) (cs : List Char) : List Char :=
  let r := cs.reverse
  if marker.reverse.isPrefixOf r then
    ((r.drop marker.length).dropWhile isJsSpace).reverse
  else cs

/-- Helper of `collapseWs` carrying whether the previous character was
whitespace (in which case the current run has already emitted its space). -/
def collapseWsAux : Bool → List Char → List Char
  | _, [] => []
  | inRun, c :: cs =>
    if isJsSpace c then
      if inRun then collapseWsAux true cs else ' ' :: collapseWsAux true cs
    else c :: collapseWsAux false cs

/-- Model of the global `replace(/\s+/g, ' ')`: every maximal whitespace run
becomes a single space. -/
def collapseWs (cs : List Char) : List Char :=
  collapseWsAux false cs

/-- Model of the content-cleaning pipeline of `createIssueForTodo`, applied
in source order: trim, strip a leading `//`, `#`, `/*` or `<!--` (each
replace runs on the previous result), strip a trailing `*/` or `-->`,
collapse whitespace runs, trim. -/
def cleanTodoContent (content : String) : String :=
  let c0 := jsTrimList content.data
  let c1 := stripLeadMarker "//".data c0
  let c2 := stripLeadMarker "#".data c1
  let c3 := stripLeadMarker "/*".data c2
  let c4 := stripLeadMarker "<!--".data c3
  let c5 := stripTrailMarker "*/".data c4
  let c6 := stripTrailMarker "-->".data c5
  String.mk (jsTrimList (collapseWs c6))

/-- Model of the test `/^(TODO|FIXME|HACK):\s*/i.test(cleanContent)`: the
trailing `\s*` matches the empty string, so the test holds exactly when the
string starts, case-insensitively, with one of the three keywords followed
by a colon. -/
def hasMarkerTag (s : String) : Bool :=
  ciStarts "TODO:".data s.data || ciStarts "FIXME:".data s.data ||
    ciStarts "HACK:".data s.data

/-- Model of `cleanContent.substring(0, 50)` followed by the conditional
ellipsis `cleanContent.length > 50 ? '...' : ''`. -/
def truncated50 (c : String) : String :=
  String.mk (c.data.take 50 ++ (if c.data.length > 50 then "...".data else []))

/-- Model of the title synthesis of `createIssueForTodo`: clean the raw
content; if it already carries a `TODO:`/`FIXME:`/`HACK:` tag use it as is,
otherwise prepend `TODO: `; in both branches the 50-character truncation and
the ellipsis are computed from the cleaned content alone. -/
def createIssueTitle (content : String) : String :=
  let clean := cleanTodoContent content
  if hasMarkerTag clean then truncated50 clean
  else "TODO: " ++ truncated50 clean

/-- Configuration inputs of `run` that the modelled outputs depend on
(`token` only gates startup and `issue-labels` only decorates created
issues, so neither appears). -/
structure RunInputs where
  thresholdInput : String
  excludeInput : String
  createIssuesInput : String
deriving DecidableEq, Repr

/-- Observable outcome of one `run`: the action outputs, whether the
reconciler ran, whether the no-PR-context diagnostic was logged, and the
pass/fail decision. -/
structure RunResult where
  todoCount : Nat
  todoFiles : Nat
  issuesCreated : Nat
  issuesLinked : Nat
  reconcilerInvoked : Bool
  warnedNoPr : Bool
  failed : Bool
deriving DecidableEq, Repr

/-- Model of `run()` on the success path: parse inputs, scan the snapshot
from the repository root, reconcile issues only when `create-issues` is
`'true'` and the PR-context test `prNumber || eventName === 'pull_request'`
passes (otherwise warn and leave both counters at zero), and fail exactly
when the finding count strictly exceeds the effective threshold. -/
def runModel (inputs : RunInputs) (ctx : GhContext) (tree : List TreeEntry)
    (fetch : String → Option String) (search : String → List Issue) :
    RunResult :=
  let excl := parseExcludePatterns inputs.excludeInput
  let createIssues := inputs.createIssuesInput == "true"
  let todos := scanForTodos fetch excl "" tree
  let todoCount := todos.length
  let todoFiles := ((todos.map (fun t => t.file)).eraseDups).length
  let doReconcile :=
    createIssues && (prContextTruthy ctx || ctx.eventName == "pull_request")
  let counters :=
    if doReconcile then processTodosForIssues ctx search todos else (0, 0)
  { todoCount := todoCount
    todoFiles := todoFiles
    issuesCreated := counters.1
    issuesLinked := counters.2
    reconcilerInvoked := doReconcile
    warnedNoPr := createIssues &&
      !(prContextTruthy ctx || ctx.eventName == "pull_request")
    failed := thresholdFails inputs.thresholdInput todoCount }

/-! Helper lemmas shared by several claim proofs. -/

/-- Every finding emitted by the per-line pass carries the scanned path. -/
theorem scanLineFindings_file_eq {filePath : String} {ln : Nat} {line : String}
    {f : Finding} (h : f ∈ scanLineFindings filePath ln line) :
    f.file = filePath := by
  unfold scanLineFindings at h
  cases hf : todoPatterns.find? (fun pr => markerTest pr.1 pr.2 line) with
  | some pr => rw [hf] at h; simp at h; subst h; rfl
  | none => rw [hf] at h; simp at h

/-- Every finding emitted by the file scanner carries the file's path. -/
theorem scanFileForTodos_file_eq {fetch : String → Option String}
    {name path : String} {f : Finding}
    (h : f ∈ scanFileForTodos fetch name path) : f.file = path := by
  unfold scanFileForTodos at h
  by_cases hext : codeExtensions.contains (jsToLower (extname name)) = true
  · rw [if_pos hext] at h
    cases hc : fetch path with
    | some content =>
      rw [hc] at h
      rcases List.mem_flatMap.mp h with ⟨p, _, hm⟩
      exact scanLineFindings_file_eq hm
    | none => rw [hc] at h; simp at h
  · rw [if_neg hext] at h; simp at h

/-- A path that passed the walker's exclusion test contains no exclusion
pattern. -/
theorem not_excluded_no_pattern {excl : List String} {itemPath : String}
    (h : excludedPath excl itemPath = false) :
    ∀ pat ∈ excl, jsIncludes itemPath pat = false := by
  intro pat hp
  have := List.any_eq_false.mp h pat hp
  simpa using this

/-- Findings of a scan only come from files whose joined path passed the
exclusion test: no finding's path contains an exclusion pattern. -/
theorem scanForTodos_not_excluded (fetch : String → Option String)
    (excl : List String) :
    ∀ (pre : String) (es : List TreeEntry) (f : Finding),
      f ∈ scanForTodos fetch excl pre es →
      ∀ pat ∈ excl, jsIncludes f.file pat = false := by
  intro pre es
  induction pre, es using scanForTodos.induct fetch excl with
  | case1 pre => intro f hf; simp [scanForTodos] at hf
  | case2 pre n rest itemPath hex ih =>
    intro f hf
    rw [scanForTodos, if_pos hex] at hf
    exact ih f hf
  | case3 pre n rest itemPath hex ih =>
    intro f hf
    rw [scanForTodos, if_neg (by simpa using hex)] at hf
    rcases List.mem_append.mp hf with hl | hr
    · have hfile := scanFileForTodos_file_eq hl
      rw [hfile]
      exact not_excluded_no_pattern (by simpa using hex)
    · exact ih f hr
  | case4 pre n children rest itemPath hex ih =>
    intro f hf
    rw [scanForTodos, if_pos hex] at hf
    exact ih f hf
  | case5 pre n children rest itemPath hex ih1 ih2 =>
    intro f hf
    rw [scanForTodos, if_neg (by simpa using hex)] at hf
    rcases List.mem_append.mp hf with hl | hr
    · exact ih1 f hl
    · exact ih2 f hr

/-- C2: for every input line the per-line classifier produces at most one
Finding; it produces exactly one iff some of the twelve fixed patterns
matches, the kind being that of the first matching pattern in the fixed
source order (all TODO patterns before FIXME before HACK); concretely, a
line containing `// TODO` and later `HACK` text also matches a HACK pattern
yet is classified as TODO. -/
theorem C2_line_classification (filePath : String) (ln : Nat) (line : String) :
    (scanLineFindings filePath ln line).length ≤ 1 ∧
    ((∃ pr ∈ todoPatterns, markerTest pr.1 pr.2 line = true) ↔
      (scanLineFindings filePath ln line).length = 1) ∧
    (∀ f ∈ scanLineFindings filePath ln line, ∃ pr,
      todoPatterns.find? (fun q => markerTest q.1 q.2 line) = some pr ∧
      f.type = kindOfKeyword pr.2) ∧
    (markerTest "//" "HACK" "// TODO: fix this HACK // HACK" = true ∧
      (scanLineFindings filePath ln "// TODO: fix this HACK // HACK").map
        (fun f => f.type) = [TodoType.TODO]) := by
  have hfind : todoPatterns.find?
      (fun pr => markerTest pr.1 pr.2 "// TODO: fix this HACK // HACK") =
      some ("//", "TODO") := by decide
  refine ⟨?_, ?_, ?_, by decide, ?_⟩
  · unfold scanLineFindings
    cases todoPatterns.find? (fun pr => markerTest pr.1 pr.2 line) <;> simp
  · unfold scanLineFindings
    cases hf : todoPatterns.find? (fun pr => markerTest pr.1 pr.2 line) with
    | none =>
      constructor
      · rintro ⟨pr, hmem, htest⟩
        exact absurd htest (by simpa using List.find?_eq_none.mp hf pr hmem)
      · simp
    | some pr =>
      constructor
      · intro _; simp
      · intro _
        exact ⟨pr, List.mem_of_find?_eq_some hf,
          by simpa using List.find?_some hf⟩
  · unfold scanLineFindings
    cases hf : todoPatterns.find? (fun pr => markerTest pr.1 pr.2 line) with
    | none => simp
    | some pr =>
      intro f hfm
      simp only [List.mem_singleton] at hfm
      subst hfm
      exact ⟨pr, rfl, rfl⟩
  · have hone : scanLineFindings filePath ln "// TODO: fix this HACK // HACK" =
        [{ file := filePath, line := ln,
           content := jsTrim "// TODO: fix this HACK // HACK",
           type := kindOfKeyword "TODO" }] := by
      unfold scanLineFindings; rw [hfind]
    rw [hone]
    simp only [List.map_cons, List.map_nil]
    exact congrArg (fun k => [k]) (by decide)

/-- Witness for C2 at a concrete line matched by a FIXME pattern. -/
theorem C2_line_classification_witness :
    (scanLineFindings "a.js" 1 "x = 1  # fixme later").length = 1 :=
  (C2_line_classification "a.js" 1 "x = 1  # fixme later").2.1.mp
    ⟨("#", "FIXME"), by decide, by decide⟩

/-- C3: a scan never reports a finding whose path contains a configured
exclusion pattern (the per-entry test runs before the file scan, and every
finding carries its file's joined path), and the walker never descends into
an excluded directory: the scan's output does not depend on the contents of
a directory whose joined path contains an exclusion pattern. -/
theorem C3_exclusion_pruning (fetch : String → Option String)
    (excl : List String) (pre : String) (entries : List TreeEntry) :
    (∀ f ∈ scanForTodos fetch excl pre entries, ∀ pat ∈ excl,
      jsIncludes f.file pat = false) ∧
    (∀ (n : String) (kids1 kids2 rest : List TreeEntry) (pat : String),
      pat ∈ excl → jsIncludes (joinPath pre n) pat = true →
      scanForTodos fetch excl pre (.dir n kids1 :: rest) =
        scanForTodos fetch excl pre (.dir n kids2 :: rest)) := by
  constructor
  · intro f hf
    exact scanForTodos_not_excluded fetch excl pre entries f hf
  · intro n kids1 kids2 rest pat hmem hinc
    have hex : excludedPath excl (joinPath pre n) = true :=
      List.any_eq_true.mpr ⟨pat, hmem, by simpa using hinc⟩
    rw [scanForTodos, if_pos hex, scanForTodos, if_pos hex]

/-- Witness for C3: with exclusion pattern `node_modules`, replacing the
contents of the `node_modules` directory changes nothing. -/
theorem C3_exclusion_pruning_witness :
    scanForTodos (fun _ => some "// TODO: x") ["node_modules"] ""
        [.dir "node_modules" [.file "b.js"], .file "a.js"] =
      scanForTodos (fun _ => some "// TODO: x") ["node_modules"] ""
        [.dir "node_modules" [], .file "a.js"] :=
  (C3_exclusion_pruning (fun _ => some "// TODO: x") ["node_modules"] ""
      []).2 "node_modules" [.file "b.js"] [] [.file "a.js"] "node_modules"
    (by decide) (by decide)

/-- C7: for a file whose lowercased extension is not in the allow-list the
scanner returns no findings, and its result does not depend on the content
oracle at all — the gate returns before any fetch. -/
theorem C7_extension_gate (name path : String)
    (fetch other : String → Option String)
    (h : codeExtensions.contains (jsToLower (extname name)) = false) :
    scanFileForTodos fetch name path = [] ∧
      scanFileForTodos fetch name path = scanFileForTodos other name path := by
  unfold scanFileForTodos
  rw [h]
  simp

/-- Witness for C7 at a PNG file. -/
theorem C7_extension_gate_witness :
    scanFileForTodos (fun _ => some "// TODO: x") "logo.png" "logo.png" = [] :=
  (C7_extension_gate "logo.png" "logo.png" (fun _ => some "// TODO: x")
    (fun _ => none) (by decide)).1

/-- Helper: a string whose `isEmpty` test is false is not the empty string. -/
theorem ne_empty_of_isEmpty_false {s : String} (h : s.isEmpty = false) :
    s ≠ "" := by
  intro he
  subst he
  revert h
  decide

/-- C9: the issue-match heuristic never returns an issue whose body is
absent or empty, whatever its title, because both acceptance predicates are
guarded by the truthiness of the body. -/
theorem C9_match_requires_body (ctx : GhContext) (search : String → List Issue)
    (todo : Finding) (issue : Issue)
    (h : findExistingIssue ctx search todo = some issue) :
    ∃ b, issue.body = some b ∧ b ≠ "" := by
  unfold findExistingIssue at h
  have key : issueMatchesTodo todo issue = true ∨
      issueBodyHasContent todo issue = true := by
    cases h1 : (search (contentSearchQuery ctx todo)).find?
        (issueMatchesTodo todo) with
    | some i =>
      rw [h1] at h
      cases h
      exact Or.inl (List.find?_some h1)
    | none =>
      rw [h1] at h
      exact Or.inr (List.find?_some h)
  cases hb : issue.body with
  | none =>
    exfalso
    rcases key with hk | hk
    · unfold issueMatchesTodo at hk
      rw [hb] at hk
      cases hk
    · unfold issueBodyHasContent at hk
      rw [hb] at hk
      cases hk
  | some b =>
    refine ⟨b, rfl, ?_⟩
    rcases key with hk | hk
    · unfold issueMatchesTodo at hk
      rw [hb] at hk
      exact ne_empty_of_isEmpty_false
        (by simpa using ((Bool.and_eq_true ..).mp hk).1)
    · unfold issueBodyHasContent at hk
      rw [hb] at hk
      exact ne_empty_of_isEmpty_false
        (by simpa using ((Bool.and_eq_true ..).mp hk).1)

/-- Witness for C9 with a one-issue search oracle. -/
theorem C9_match_requires_body_witness :
    ∃ b, (Issue.mk 7 "a todo" (some "see src/a.js")).body = some b ∧ b ≠ "" :=
  C9_match_requires_body (GhContext.mk "o" "r" "push" none none none)
    (fun _ => [Issue.mk 7 "a todo" (some "see src/a.js")])
    (Finding.mk "src/a.js" 1 "// TODO: x" TodoType.TODO)
    (Issue.mk 7 "a todo" (some "see src/a.js")) (by decide)

/-- Chunks produced by splitting contain only non-separator characters of
the input. -/
theorem splitOnCharL_chars {sep : Char} :
    ∀ (cs chunk : List Char), chunk ∈ splitOnCharL sep cs →
      ∀ c ∈ chunk, c ∈ cs ∧ ¬ c = sep := by
  intro cs
  induction cs with
  | nil =>
    intro chunk hc c hmem
    simp [splitOnCharL] at hc
    subst hc
    cases hmem
  | cons c0 rest ih =>
    intro chunk hc c hmem
    by_cases h0 : c0 = sep
    · rw [splitOnCharL, if_pos h0] at hc
      rcases List.mem_cons.mp hc with he | ht
      · subst he; cases hmem
      · have := ih chunk ht c hmem
        exact ⟨List.mem_cons_of_mem c0 this.1, this.2⟩
    · rw [splitOnCharL, if_neg h0] at hc
      cases hsplit : splitOnCharL sep rest with
      | nil =>
        rw [hsplit] at hc
        have hch : chunk = [c0] := by simpa using hc
        subst hch
        have hcc : c = c0 := by simpa using hmem
        subst hcc
        exact ⟨List.mem_cons_self c rest, h0⟩
      | cons hd tl =>
        rw [hsplit] at hc
        rcases List.mem_cons.mp hc with he | ht
        · subst he
          rcases List.mem_cons.mp hmem with hce | hch
          · subst hce
            exact ⟨List.mem_cons_self c rest, h0⟩
          · have := ih hd (hsplit ▸ List.mem_cons_self hd tl) c hch
            exact ⟨List.mem_cons_of_mem c0 this.1, this.2⟩
        · have := ih chunk (hsplit ▸ List.mem_cons_of_mem hd ht) c hmem
          exact ⟨List.mem_cons_of_mem c0 this.1, this.2⟩

/-- C10: exclusion-pattern parsing never yields an empty pattern, and an
input made only of commas and whitespace parses to the empty pattern list,
under which no path whatsoever is excluded. -/
theorem C10_no_empty_exclusion :
    (∀ (s : String), ∀ p ∈ parseExcludePatterns s, p ≠ "") ∧
    (∀ (s : String), (∀ c ∈ s.data, c = ',' ∨ isJsSpace c = true) →
      parseExcludePatterns s = [] ∧
      ∀ path, excludedPath (parseExcludePatterns s) path = false) := by
  constructor
  · intro s p hp
    have := (List.mem_filter.mp hp).2
    intro he
    subst he
    simp at this
  · intro s hall
    have hnil : parseExcludePatterns s = [] := by
      unfold parseExcludePatterns
      rw [List.filter_eq_nil_iff]
      intro p hp
      rcases List.mem_map.mp hp with ⟨chunk, hchunk, hmk⟩
      have hsp : ∀ c ∈ chunk, isJsSpace c = true := by
        intro c hc
        have h2 := splitOnCharL_chars s.data chunk hchunk c hc
        rcases hall c h2.1 with h3 | h3
        · exact absurd h3 h2.2
        · exact h3
      have htrim : jsTrimList chunk = [] := by
        unfold jsTrimList
        rw [List.dropWhile_eq_nil_iff.mpr (fun c hc => hsp c hc)]
        simp
      rw [← hmk, htrim]
      simp
    exact ⟨hnil, fun path => by rw [hnil]; rfl⟩

/-- Witness for C10 on an input of commas and blanks. -/
theorem C10_no_empty_exclusion_witness :
    parseExcludePatterns " , ,,  ," = [] :=
  (C10_no_empty_exclusion.2 " , ,,  ," (by decide)).1

/-- Fixed content used to refute C4 as stated: 48 non-marker characters. -/
def c4content : String := String.mk (List.replicate 48 'x')

/-- C4 counterexample: for a cleaned content of 48 characters without a
marker tag the cleaned-and-prefixed text has 54 characters, yet the title is
the whole prefixed text with no ellipsis — not the first 50 characters of
the prefixed text with `...` appended, as the claim requires whenever that
length exceeds 50. -/
theorem C4_title_truncation_counterexample :
    cleanTodoContent c4content = c4content ∧
    hasMarkerTag c4content = false ∧
    ("TODO: " ++ c4content).length = 54 ∧
    createIssueTitle c4content = "TODO: " ++ c4content ∧
    createIssueTitle c4content ≠
      String.mk (("TODO: " ++ c4content).data.take 50) ++ "..." := by
  decide

/-- Helper: the truncation step leaves a content of at most 50 characters
unchanged. -/
theorem truncated50_of_le {c : String} (h : c.length ≤ 50) :
    truncated50 c = c := by
  have h2 : ¬ (c.data.length > 50) := Nat.not_lt.mpr h
  unfold truncated50
  rw [if_neg h2, List.append_nil, List.take_of_length_le (Nat.not_lt.mp h2)]

/-- Helper: the truncation step cuts a content of more than 50 characters to
its first 50 characters and appends the ellipsis. -/
theorem truncated50_of_gt {c : String} (h : c.length > 50) :
    truncated50 c = String.mk (c.data.take 50) ++ "..." := by
  have h2 : c.data.length > 50 := h
  unfold truncated50
  rw [if_pos h2]
  rfl

/-- Helper: appending to the empty string is the identity. -/
theorem str_empty_append (s : String) : "" ++ s = s := rfl

/-- C4 amended: the 50-character cut and the ellipsis test are applied to
the cleaned content before the `TODO: ` prefix is added (not to the
prefixed text): a cleaned content of length at most 50 yields the optional
prefix followed by the whole cleaned content with no ellipsis, and one of
length above 50 yields the optional prefix, the first 50 characters of the
cleaned content, and `...`. -/
theorem C4_title_truncation_amended (raw : String) :
    ((cleanTodoContent raw).length ≤ 50 →
      createIssueTitle raw =
        (if hasMarkerTag (cleanTodoContent raw) then "" else "TODO: ") ++
          cleanTodoContent raw) ∧
    ((cleanTodoContent raw).length > 50 →
      createIssueTitle raw =
        (if hasMarkerTag (cleanTodoContent raw) then "" else "TODO: ") ++
          (String.mk ((cleanTodoContent raw).data.take 50) ++ "...")) := by
  constructor
  · intro h
    simp only [createIssueTitle]
    by_cases htag : hasMarkerTag (cleanTodoContent raw) = true
    · rw [if_pos htag, truncated50_of_le h, if_pos htag,
        str_empty_append]
    · rw [if_neg htag, truncated50_of_le h, if_neg htag]
  · intro h
    simp only [createIssueTitle]
    by_cases htag : hasMarkerTag (cleanTodoContent raw) = true
    · rw [if_pos htag, truncated50_of_gt h, if_pos htag,
        str_empty_append]
    · rw [if_neg htag, truncated50_of_gt h, if_neg htag]

/-- Witness for the amended C4 at a short content. -/
theorem C4_title_truncation_amended_witness :
    createIssueTitle "// fix the parser" =
      (if hasMarkerTag (cleanTodoContent "// fix the parser") then ""
        else "TODO: ") ++ cleanTodoContent "// fix the parser" :=
  (C4_title_truncation_amended "// fix the parser").1 (by decide)

/-- C6: whenever some issue returned by the content search has a body
containing the finding's trimmed raw text, the reconciler resolves the
finding to the first content-search result accepted by the step-2 predicate
(body contains the file path OR the raw text, OR the lowercased title
contains `todo`, `fixme` or `hack`), and counts the finding as linked, not
created. -/
theorem C6_content_match_links (ctx : GhContext) (search : String → List Issue)
    (todo : Finding)
    (h : ∃ i ∈ search (contentSearchQuery ctx todo),
      issueBodyHasContent todo i = true) :
    (∃ issue, findExistingIssue ctx search todo = some issue ∧
      (search (contentSearchQuery ctx todo)).find? (issueMatchesTodo todo) =
        some issue) ∧
    processTodosForIssues ctx search [todo] = (0, 1) := by
  obtain ⟨i, hmem, hbody⟩ := h
  have himp : issueMatchesTodo todo i = true := by
    unfold issueBodyHasContent at hbody
    unfold issueMatchesTodo
    cases hb : i.body with
    | none => rw [hb] at hbody; cases hbody
    | some b =>
      rw [hb] at hbody
      have h1 := ((Bool.and_eq_true ..).mp hbody).1
      have h2 := ((Bool.and_eq_true ..).mp hbody).2
      simp [h1, h2]
  have hsome : ((search (contentSearchQuery ctx todo)).find?
      (issueMatchesTodo todo)).isSome := by
    rw [List.find?_isSome]
    exact ⟨i, hmem, himp⟩
  obtain ⟨issue, hfind⟩ := Option.isSome_iff_exists.mp hsome
  have hex : findExistingIssue ctx search todo = some issue := by
    unfold findExistingIssue
    rw [hfind]
  refine ⟨⟨issue, hex, hfind⟩, ?_⟩
  unfold processTodosForIssues
  simp only [List.foldl_cons, List.foldl_nil, hex]

/-- Witness for C6 with a one-issue search oracle whose body holds the raw
text. -/
theorem C6_content_match_links_witness :
    processTodosForIssues (GhContext.mk "o" "r" "pull_request" (some 3) none none)
      (fun _ => [Issue.mk 9 "tracking" (some "body with // TODO: x inside")])
      [Finding.mk "src/a.js" 1 "// TODO: x" TodoType.TODO] = (0, 1) :=
  (C6_content_match_links (GhContext.mk "o" "r" "pull_request" (some 3) none none)
    (fun _ => [Issue.mk 9 "tracking" (some "body with // TODO: x inside")])
    (Finding.mk "src/a.js" 1 "// TODO: x" TodoType.TODO)
    ⟨Issue.mk 9 "tracking" (some "body with // TODO: x inside"),
      by decide, by decide⟩).2

/-- C5: with issue creation enabled but no pull-request identity in the
context (no truthy number in the payload and an event other than
`pull_request`), the reconciler is skipped, both issue counters are zero,
the diagnostic is emitted, and pass/fail is exactly the threshold gate
applied to the finding count. -/
theorem C5_no_pr_context_skips_reconciler (inputs : RunInputs)
    (ctx : GhContext) (tree : List TreeEntry)
    (fetch : String → Option String) (search : String → List Issue)
    (hc : inputs.createIssuesInput = "true")
    (hpr : prContextTruthy ctx = false)
    (hev : ctx.eventName ≠ "pull_request") :
    (runModel inputs ctx tree fetch search).reconcilerInvoked = false ∧
    (runModel inputs ctx tree fetch search).issuesCreated = 0 ∧
    (runModel inputs ctx tree fetch search).issuesLinked = 0 ∧
    (runModel inputs ctx tree fetch search).warnedNoPr = true ∧
    (runModel inputs ctx tree fetch search).failed =
      thresholdFails inputs.thresholdInput
        (runModel inputs ctx tree fetch search).todoCount := by
  have hev2 : (ctx.eventName == "pull_request") = false := by
    simpa using hev
  have hc2 : (inputs.createIssuesInput == "true") = true := by
    rw [hc]
    rfl
  unfold runModel
  simp [hc2, hpr, hev2]

/-- Witness for C5 on a push-event context with creation enabled. -/
theorem C5_no_pr_context_skips_reconciler_witness :
    (runModel (RunInputs.mk "10" "" "true")
        (GhContext.mk "o" "r" "push" none none none)
        [TreeEntry.file "a.js"] (fun _ => some "// TODO: x")
        (fun _ => [])).reconcilerInvoked = false ∧
    (runModel (RunInputs.mk "10" "" "true")
        (GhContext.mk "o" "r" "push" none none none)
        [TreeEntry.file "a.js"] (fun _ => some "// TODO: x")
        (fun _ => [])).issuesCreated = 0 ∧
    (runModel (RunInputs.mk "10" "" "true")
        (GhContext.mk "o" "r" "push" none none none)
        [TreeEntry.file "a.js"] (fun _ => some "// TODO: x")
        (fun _ => [])).issuesLinked = 0 ∧
    (runModel (RunInputs.mk "10" "" "true")
        (GhContext.mk "o" "r" "push" none none none)
        [TreeEntry.file "a.js"] (fun _ => some "// TODO: x")
        (fun _ => [])).warnedNoPr = true ∧
    (runModel (RunInputs.mk "10" "" "true")
        (GhContext.mk "o" "r" "push" none none none)
        [TreeEntry.file "a.js"] (fun _ => some "// TODO: x")
        (fun _ => [])).failed =
      thresholdFails "10"
        (runModel (RunInputs.mk "10" "" "true")
          (GhContext.mk "o" "r" "push" none none none)
          [TreeEntry.file "a.js"] (fun _ => some "// TODO: x")
          (fun _ => [])).todoCount :=
  C5_no_pr_context_skips_reconciler (RunInputs.mk "10" "" "true")
    (GhContext.mk "o" "r" "push" none none none)
    [TreeEntry.file "a.js"] (fun _ => some "// TODO: x") (fun _ => [])
    rfl (by decide) (by decide)

/-- C8: the scan is a pure function of the snapshot and configuration that
factors into the spec's two stages — the finding sequence equals the
depth-first walk of non-excluded candidate files composed with the per-file
scan, so its order is walker traversal order and then in-file line order,
and any two runs over the same snapshot agree. -/
theorem C8_scan_refines_ordered_walk (fetch : String → Option String)
    (excl : List String) : ∀ (pre : String) (es : List TreeEntry),
    scanForTodos fetch excl pre es =
      (specWalkFiles excl pre es).flatMap
        (fun f => scanFileForTodos fetch f.1 f.2) := by
  intro pre es
  induction pre, es using scanForTodos.induct fetch excl with
  | case1 pre =>
    rw [scanForTodos, specWalkFiles]
    rfl
  | case2 pre n rest itemPath hex ih =>
    rw [scanForTodos, if_pos hex, specWalkFiles, if_pos hex, ih]
  | case3 pre n rest itemPath hex ih =>
    rw [scanForTodos, if_neg (by simpa using hex), specWalkFiles,
      if_neg (by simpa using hex), List.flatMap_cons, ih]
  | case4 pre n children rest itemPath hex ih =>
    rw [scanForTodos, if_pos hex, specWalkFiles, if_pos hex, ih]
  | case5 pre n children rest itemPath hex ih1 ih2 =>
    rw [scanForTodos, if_neg (by simpa using hex), specWalkFiles,
      if_neg (by simpa using hex), List.flatMap_append, ih1, ih2]

/-- Fetch oracle of the C1 failing input: one file with one TODO line. -/
def c1fetch : String → Option String :=
  fun p => if p = "a.js" then some "// TODO: fix" else none

/-- C1 failing input: with threshold input `0`, the `parseInt(...) || 10`
coercion (zero is falsy in JavaScript) makes the effective threshold 10, so
a run with exactly one finding passes — while the claim and the documented
meaning of the threshold ("maximum number of TODOs allowed before the
action fails") require it to fail. -/
theorem C1_threshold_zero_divergence :
    effectiveThreshold "0" = 10 ∧
    (runModel (RunInputs.mk "0" "" "false")
        (GhContext.mk "owner" "repo" "push" none none none)
        [TreeEntry.file "a.js"] c1fetch (fun _ => [])).todoCount = 1 ∧
    (runModel (RunInputs.mk "0" "" "false")
        (GhContext.mk "owner" "repo" "push" none none none)
        [TreeEntry.file "a.js"] c1fetch (fun _ => [])).failed = false := by
  have hexcl : parseExcludePatterns "" = [] := by decide
  have hscan : scanForTodos c1fetch [] "" [TreeEntry.file "a.js"] =
      [{ file := "a.js", line := 1, content := "// TODO: fix",
         type := TodoType.TODO }] := by
    rw [scanForTodos, if_neg (by decide), scanForTodos]
    decide
  refine ⟨by decide, ?_, ?_⟩ <;>
    · simp only [runModel, hexcl, hscan]
      decide

end TodoCreeper
